import Mathlib

/-!
# Verification of the review-result pipeline

A shallow embedding, in Lean 4, of the core review-result pipeline of the
`action-cletus-code` repository: the pure data transformations of
`src/cletus_code/utils.py`, `src/cletus_code/process_review.py` and
`src/cletus_code/validate_json.py`, together with theorems settling the
behavioural claims about them.

Modelling conventions:

* Python strings are Lean `String`s; the relevant fragment of Python string
  semantics (`strip`, `lower`, `upper`, slicing, `splitlines`) is embedded
  explicitly below over ASCII data.  Case mapping is modelled on the ASCII
  alphabet (`Char.toLower`/`Char.toUpper`), which is the fragment the pipeline
  exercises.
* JSON data (the parsed `review.json` payload) is the inductive `JValue`.
  Python truthiness, `dict.get`, key membership and `str()` rendering are
  embedded as functions on `JValue`.
* Python code that can raise is embedded in `Except String`; the error
  message strings are best effort and no theorem depends on them.
* External collaborators (the `re` regex module, the `jsonschema`
  Draft-7 validator, the GitHub client) are modelled as parameters or, where a
  claim needs their concrete behaviour, by definitions explicitly marked as
  modelled from the spec.
-/

namespace Cletus

/-! ## Python string primitives -/

/-- The whitespace characters recognised by Python's `str.strip()` (ASCII
fragment: space, tab, newline, carriage return, vertical tab, form feed). -/
def pyIsSpace (c : Char) : Bool :=
  c = ' ' || c = '\t' || c = '\n' || c = '\r' || c = '\x0b' || c = '\x0c'

/-- Drop leading and trailing whitespace from a character list, as Python
`str.strip()` does. -/
def pyStripList (cs : List Char) : List Char :=
  ((cs.dropWhile pyIsSpace).reverse.dropWhile pyIsSpace).reverse

/-- Python `s.strip()`. -/
def pyStrip (s : String) : String :=
  ⟨pyStripList s.data⟩

/-- Python `s.lower()` (ASCII fragment). -/
def pyLower (s : String) : String :=
  ⟨s.data.map Char.toLower⟩

/-- Python `s.upper()` (ASCII fragment). -/
def pyUpper (s : String) : String :=
  ⟨s.data.map Char.toUpper⟩

/-- Python slicing `s[:j]` for an arbitrary (possibly negative) stop index:
a nonnegative `j` keeps the first `j` characters, a negative `j` drops the
last `-j` characters, both clamped to the string. -/
def pySliceTo (s : String) (j : Int) : String :=
  if 0 ≤ j then ⟨s.data.take j.toNat⟩
  else ⟨s.data.take (s.data.length - (-j).toNat)⟩

/-- Python `s.startswith(pre)`: code-point prefix test. -/
def pyStartswith (s pre : String) : Bool :=
  pre.data.isPrefixOf s.data

/-- Python `c in s` for a single character `c`. -/
def pyContainsChar (s : String) (c : Char) : Bool :=
  s.data.contains c

/-- One step of Python `str.splitlines()`: split at `\n`, `\r` and `\r\n`. -/
def pySplitlinesList : List Char → List (List Char) → List Char → List (List Char)
  | [], acc, cur => (cur.reverse :: acc).reverse
  | '\n' :: rest, acc, cur => pySplitlinesList rest (cur.reverse :: acc) []
  | '\r' :: '\n' :: rest, acc, cur => pySplitlinesList rest (cur.reverse :: acc) []
  | '\r' :: rest, acc, cur => pySplitlinesList rest (cur.reverse :: acc) []
  | c :: rest, acc, cur => pySplitlinesList rest acc (c :: cur)

/-- Python `s.splitlines()`.  As in Python, the empty string yields no lines
and a trailing line terminator does not produce a final empty line. -/
def pySplitlines (s : String) : List String :=
  if s.data = [] then []
  else
    let parts := pySplitlinesList s.data [] []
    let parts := match parts.getLast? with
      | some [] => parts.dropLast
      | _ => parts
    parts.map fun cs => ⟨cs⟩

/-! ## JSON values and Python truthiness -/

/-- A parsed JSON value, as produced by Python's `json.loads`.  Numbers are
modelled as integers (no claim depends on float values). -/
inductive JValue where
  | null : JValue
  | bool (b : Bool) : JValue
  | num (n : Int) : JValue
  | str (s : String) : JValue
  | arr (xs : List JValue) : JValue
  | obj (kvs : List (String × JValue)) : JValue
  deriving Inhabited

namespace JValue

/-- Python truthiness of a JSON value: `None`, `False`, `0`, `""`, `[]` and
`{}` are falsy, everything else truthy. -/
def truthy : JValue → Bool
  | .null => false
  | .bool b => b
  | .num n => n != 0
  | .str s => s != ""
  | .arr xs => !xs.isEmpty
  | .obj kvs => !kvs.isEmpty

/-- Whether the value is a Python `dict`. -/
def isObj : JValue → Bool
  | .obj _ => true
  | _ => false

/-- Key membership `k in d` on a dict (`false` on every non-dict, which the
source never exercises: it is guarded by `isinstance` checks). -/
def hasKey : JValue → String → Bool
  | .obj kvs, k => (kvs.lookup k).isSome
  | _, _ => false

/-- Python `d.get(k)`: the stored value, or `None` when the key is absent
(and on non-dicts, which the source never exercises). -/
def get : JValue → String → JValue
  | .obj kvs, k => (kvs.lookup k).getD .null
  | _, _ => .null

/-- Whether the value is Python `None` (JSON `null`). -/
def isNull : JValue → Bool
  | .null => true
  | _ => false

/-- The Python type name of a value, for error messages. -/
def typeName : JValue → String
  | .null => "NoneType"
  | .bool _ => "bool"
  | .num _ => "int"
  | .str _ => "str"
  | .arr _ => "list"
  | .obj _ => "dict"

end JValue

open JValue

/-- Python `x or ""`: the value itself when truthy, else the empty string. -/
def orEmptyStr (v : JValue) : JValue :=
  if v.truthy then v else .str ""

/-- Calling a `str` method on a value: succeeds only on strings, raising
(`AttributeError`) otherwise, as CPython does. -/
def asStr : JValue → Except String String
  | .str s => .ok s
  | v => .error ("'" ++ v.typeName ++ "' object has no string methods")

mutual

/-- Python `repr()` on the JSON fragment (ASCII strings without quotes are
rendered as Python renders them; the containers follow Python's
`repr(list)`/`repr(dict)` layout). -/
def pyRepr : JValue → String
  | .null => "None"
  | .bool b => if b then "True" else "False"
  | .num n => toString n
  | .str s => "'" ++ s ++ "'"
  | .arr xs => "[" ++ String.intercalate ", " (pyReprList xs) ++ "]"
  | .obj kvs => "\x7b" ++ String.intercalate ", " (pyReprPairs kvs) ++ "\x7d"

/-- `repr` of the elements of a JSON array. -/
def pyReprList : List JValue → List String
  | [] => []
  | x :: rest => pyRepr x :: pyReprList rest

/-- `repr` of the key/value pairs of a JSON object. -/
def pyReprPairs : List (String × JValue) → List String
  | [] => []
  | (k, v) :: rest => ("'" ++ k ++ "': " ++ pyRepr v) :: pyReprPairs rest

end

/-- Python `str()` on the JSON fragment (as used by f-string interpolation). -/
def pyStr : JValue → String
  | .str s => s
  | v => pyRepr v

/-! ## `utils.py` -/

/-- `utils.truncate`: strip, return unchanged when within the limit, else cut
at `limit - 3` (a Python slice, so negative indices count from the end) and
append `"..."`.  The `text or ""` guard of the source only matters for a
`None` argument, which the `String` domain excludes. -/
def truncate (text : String) (limit : Int) : String :=
  let t := pyStrip text
  if (t.length : Int) ≤ limit then t
  else pySliceTo t (limit - 3) ++ "..."

/-- `utils.normalize_risk`: uppercase, defaulting falsy values (`None`, `""`)
to `"UNKNOWN"`. -/
def normalizeRisk (value : Option String) : String :=
  match value with
  | none => "UNKNOWN"
  | some s => if s = "" then "UNKNOWN" else pyUpper s

/-- The `_RISK_PRIORITY` table of `utils.py`. -/
def riskPriority : List (String × Nat) :=
  [("HIGH", 0), ("MEDIUM", 1), ("LOW", 2), ("UNKNOWN", 3)]

/-- `utils.risk_sort_key`: priority of the normalised risk, with every
unrecognised value mapped to `len(_RISK_PRIORITY) = 4`. -/
def riskSortKey (value : Option String) : Nat :=
  (riskPriority.lookup (normalizeRisk value)).getD riskPriority.length

/-- A character kept verbatim by `utils.slugify` (the complement of the
`[^a-z0-9]+` pattern). -/
def isSlugChar (c : Char) : Bool :=
  ('a' ≤ c && c ≤ 'z') || ('0' ≤ c && c ≤ '9')

/-- `re.sub("[^a-z0-9]+", "-", ·)`, with `inRun` recording whether the
previous character belonged to a non-slug run: each maximal run of non-slug
characters collapses to a single hyphen. -/
def collapseAux (inRun : Bool) : List Char → List Char
  | [] => []
  | c :: rest =>
      if isSlugChar c then c :: collapseAux false rest
      else if inRun then collapseAux true rest
      else '-' :: collapseAux true rest

/-- `re.sub("[^a-z0-9]+", "-", ·)`: each maximal run of non-slug characters
collapses to a single hyphen. -/
def collapseRuns (cs : List Char) : List Char :=
  collapseAux false cs

/-- `str.strip("-")`: drop leading and trailing hyphens. -/
def stripDashes (cs : List Char) : List Char :=
  ((cs.dropWhile fun c => c = '-').reverse.dropWhile fun c => c = '-').reverse

/-- `utils.slugify`: strip and lowercase, collapse non-alphanumeric runs to
single hyphens, trim outer hyphens, and fall back when the slug is empty. -/
def slugify (text fallback : String) : String :=
  let normalized := pyLower (pyStrip text)
  let slug : String := ⟨stripDashes (collapseRuns normalized.data)⟩
  if slug = "" then fallback else slug

/-- Insert-or-overwrite on an insertion-ordered string map, as assignment to
a Python `dict` (or `defaultdict`) key behaves. -/
def upsert {β : Type} : List (String × β) → String → β → List (String × β)
  | [], k, v => [(k, v)]
  | (k', v') :: rest, k, v =>
      if k' = k then (k, v) :: rest else (k', v') :: upsert rest k v

/-- The per-render anchor counter (`defaultdict(int)` keyed by anchor). -/
def Counter := List (String × Nat)

/-- Counter read (defaulting to 0, as `defaultdict(int)` does). -/
def cGet (ctr : Counter) (k : String) : Nat :=
  ((ctr : List (String × Nat)).lookup k).getD 0

/-- Counter write. -/
def cSet (ctr : Counter) (k : String) (v : Nat) : Counter :=
  upsert (ctr : List (String × Nat)) k v

/-- The undisambiguated anchor of `utils.make_anchor`:
`f"{prefix}-{base}" if prefix else base` over the slugified text. -/
def anchorBase (pfx text fallback : String) : String :=
  let base := slugify text fallback
  if pfx ≠ "" then pfx ++ "-" ++ base else base

/-- `utils.make_anchor`: slugify, attach the prefix when nonempty, and
disambiguate duplicates with `-1`, `-2`, … from the per-anchor counter.
Returns the anchor together with the updated counter (the Python function
mutates the `defaultdict` in place). -/
def makeAnchor (ctr : Counter) (pfx text fallback : String) : String × Counter :=
  let anchor := anchorBase pfx text fallback
  let n := cGet ctr anchor
  if n ≠ 0 then (anchor ++ "-" ++ Nat.repr n, cSet ctr anchor (n + 1))
  else (anchor, cSet ctr anchor (n + 1))

/-- The anchor `make_anchor` produces when the counter stands at `n` for its
base: the bare base at 0, the `-n`-suffixed base afterwards. -/
def suffixedAnchor (a : String) : Nat → String
  | 0 => a
  | Nat.succ k => a ++ "-" ++ Nat.repr (k + 1)

/-- `n` successive calls of `make_anchor` with identical arguments against a
threaded counter, collecting the returned anchors. -/
def makeAnchorCalls (pfx text fallback : String) : Counter → Nat → List String
  | _, 0 => []
  | ctr, n + 1 =>
      let ac := makeAnchor ctr pfx text fallback
      ac.1 :: makeAnchorCalls pfx text fallback ac.2 n

/-! ## `process_review.py`: findings access and the review-data loader -/

/-- `process_review._get_findings`: resolve the findings sequence from
`findings`, falling back to the legacy `changes` key (both via `is None`
checks), defaulting to an empty list, and raising when the resolved value is
not a list. -/
def getFindings (data : JValue) : Except String (List JValue) :=
  let fd := data.get "findings"
  let fd := if fd.isNull then data.get "changes" else fd
  let fd := if fd.isNull then .arr [] else fd
  match fd with
  | .arr xs => .ok xs
  | v => .error ("findings must be a list, got <class '" ++ v.typeName ++ "'>")

/-- The version/resource counting loop of `load_review_data` (lines 163-173),
run purely for diagnostics.  It is nevertheless part of the loader's
behaviour because `(item.get("type") or "").lower()` raises on a truthy
non-string `type`. -/
def countTypes (items : List JValue) : Except String (Nat × Nat) :=
  items.foldlM
    (fun counts item =>
      match item with
      | .obj _ => do
          let t := pyLower (← asStr (orEmptyStr (item.get "type")))
          if t = "version" || item.hasKey "component" then
            pure (counts.1 + 1, counts.2)
          else if t = "resource" then
            pure (counts.1, counts.2 + 1)
          else if item.hasKey "changeType" || item.hasKey "resource" then
            pure (counts.1, counts.2 + 1)
          else
            pure counts
      | _ => pure counts)
    (0, 0)

/-- `process_review.load_review_data`, from the point where the file's bytes
have been parsed into JSON (the path / size / encoding checks upstream are
filesystem collaborators).  Validates the top-level structure when requested,
resolves the findings sequence for the diagnostic count (`findings`, else
`changes` via `or []`), and returns the parsed payload itself. -/
def loadChecks (data : JValue) (validateStructure : Bool) : Except String Unit :=
  if !data.isObj then
    .error ("review data must be a JSON object, got <class '" ++ data.typeName ++ "'>")
  else
    let missing := ["approved", "overallRisk", "summary"].filter fun f => !data.hasKey f
    if validateStructure && !missing.isEmpty then
      .error ("review data missing required fields: " ++ String.intercalate ", " missing)
    else if validateStructure && (!data.hasKey "findings" && !data.hasKey "changes") then
      .error "review data missing required field: findings"
    else
      let findingsData := data.get "findings"
      let findingsData :=
        if findingsData.isNull then
          if (data.get "changes").truthy then data.get "changes" else .arr []
        else findingsData
      match (match findingsData with
        | .arr xs => countTypes xs
        | _ => .ok (0, 0)) with
      | .ok _ => .ok ()
      | .error e => .error e

/-- `process_review.load_review_data`, continued: when every check passes the
function returns the parsed payload `data` itself. -/
def loadReviewData (data : JValue) (validateStructure : Bool := true) :
    Except String JValue :=
  match loadChecks data validateStructure with
  | .ok _ => .ok data
  | .error e => .error e

/-! ## `process_review.py`: the auto-merge policy and the pipeline gate -/

/-- The external `re` module, as seen by `should_auto_merge`:
`eng pattern subject` is `none` when the pattern does not compile
(`re.error`), otherwise `some` of whether `re.search` found a match. -/
def RegexEngine := String → String → Option Bool

/-- Pull-request metadata as read by the policy.  A `none` field models
`pr.head.ref` / `pr.user.login` being `None` or the attribute access
raising, both of which the source maps to `""`. -/
structure PullReq where
  headRef : Option String
  userLogin : Option String

/-- The auto-merge configuration as normalised by
`config.get_auto_merge_config`: `enabled` coerced to `bool` and the three
rule lists reduced to stripped, non-empty strings
(`config._normalize_string_list`).  On this domain the `isinstance(·, str)`
guards inside `should_auto_merge` are identities. -/
structure AutoMergeConfig where
  enabled : Bool
  branchPrefixes : List String
  branchRegexes : List String
  authorLogins : List String

/-- `(pr.head.ref or "").strip()` with attribute failures mapped to `""`. -/
def branchOf (pr : PullReq) : String :=
  pyStrip (pr.headRef.getD "")

/-- `(pr.user.login or "").strip()` with attribute failures mapped to `""`. -/
def authorOf (pr : PullReq) : String :=
  pyStrip (pr.userLogin.getD "")

/-- The branch-prefix loop of `should_auto_merge`: one description per
matching prefix, in list order. -/
def prefixMatches (cfg : AutoMergeConfig) (branch : String) : List String :=
  cfg.branchPrefixes.filterMap fun p =>
    if pyStartswith branch p then some ("branch prefix '" ++ p ++ "'") else none

/-- The branch-regex loop of `should_auto_merge`: one description per
matching pattern; a pattern the engine rejects (`re.error`) is skipped. -/
def regexMatches (eng : RegexEngine) (cfg : AutoMergeConfig) (branch : String) :
    List String :=
  cfg.branchRegexes.filterMap fun p =>
    match eng p branch with
    | some true => some ("branch regex '" ++ p ++ "'")
    | _ => none

/-- The author check of `should_auto_merge`:
`if author and author in authors`. -/
def authorMatches (cfg : AutoMergeConfig) (author : String) : List String :=
  if author ≠ "" && cfg.authorLogins.contains author then
    ["author '" ++ author ++ "'"]
  else []

/-- The accumulated `matched` list of `should_auto_merge`: prefix matches,
then regex matches, then the author match. -/
def matchedRules (eng : RegexEngine) (cfg : AutoMergeConfig)
    (branch author : String) : List String :=
  prefixMatches cfg branch ++ regexMatches eng cfg branch
    ++ authorMatches cfg author

/-- `process_review.should_auto_merge`: the pure allow/deny decision with its
textual justification. -/
def shouldAutoMerge (eng : RegexEngine) (pr : PullReq) (cfg : AutoMergeConfig) :
    Bool × String :=
  if !cfg.enabled then (false, "disabled in repo config")
  else if cfg.branchPrefixes.isEmpty && cfg.branchRegexes.isEmpty
      && cfg.authorLogins.isEmpty then
    (true, "enabled for all PRs")
  else
    let branch := branchOf pr
    let author := authorOf pr
    let matched := matchedRules eng cfg branch author
    if !matched.isEmpty then (true, String.intercalate "; " matched)
    else if branch ≠ "" || author ≠ "" then
      let detail :=
        (if branch ≠ "" then ["branch '" ++ branch ++ "'"] else [])
        ++ (if author ≠ "" then ["author '" ++ author ++ "'"] else [])
      (false, "no rules matched for " ++ String.intercalate ", " detail)
    else (false, "no rules matched")

/-- `process_review._should_skip_merge`: the environment-driven replay-safety
override.  `env` is `os.environ.get`. -/
def shouldSkipMerge (env : String → Option String) : Bool :=
  let override := pyLower (pyStrip ((env "REVIEW_SKIP_MERGE").getD ""))
  if override = "1" || override = "true" || override = "yes" then true
  else env "GITHUB_EVENT_NAME" == some "workflow_dispatch"

/-- The gate computed at `process_review.main` line 1162:
`will_automerge = not skip_merge and not validation_errors and approved and
auto_merge_allowed`, with `approved = bool(data.get("approved"))`. -/
def willAutoMerge (env : String → Option String) (data : JValue)
    (validationErrors : List String) (autoMergeAllowed : Bool) : Bool :=
  !shouldSkipMerge env && validationErrors.isEmpty
    && (data.get "approved").truthy && autoMergeAllowed

/-- Whether `main` reaches `approve_and_merge` (lines 1202-1207): the
`skip_merge` branch is taken first, otherwise the `will_automerge` branch. -/
def mergeActionTaken (env : String → Option String) (data : JValue)
    (validationErrors : List String) (eng : RegexEngine) (pr : PullReq)
    (cfg : AutoMergeConfig) : Bool :=
  if shouldSkipMerge env then false
  else willAutoMerge env data validationErrors (shouldAutoMerge eng pr cfg).1

/-! ## `process_review.derive_labels` -/

/-- The label configuration as read by `derive_labels` from
`config.get_label_config()`, with the source's `.get(..., default)` lookups
already resolved into fields (`default_color` defaults to `"6f42c1"`, the
color tables to empty maps). -/
structure LabelConfig where
  defaultColor : String
  changeTypeColors : List (String × String)
  updateColors : List (String × String)
  riskColors : List (String × String)
  tagColors : List (String × List (String × String))

/-- The `prefix_color_maps` table: the fixed `change`/`update` maps, extended
by configured `tag_colors` entries that do not collide with an existing
entry. -/
def prefixColorMaps (cfg : LabelConfig) : List (String × List (String × String)) :=
  cfg.tagColors.foldl
    (fun acc pm => if (acc.lookup pm.1).isSome then acc else acc ++ [pm])
    [("change", cfg.changeTypeColors), ("update", cfg.updateColors)]

/-- Split a (normalised) tag at its first colon, as `split(":", 1)` does on a
string known to contain a colon. -/
def splitOnceColon (s : String) : String × String :=
  (⟨s.data.takeWhile fun c => c ≠ ':'⟩, ⟨(s.data.dropWhile fun c => c ≠ ':').drop 1⟩)

/-- The tag loop of `derive_labels` (lines 766-777) for one finding: each
well-formed `prefix:value` tag whose prefix has a configured color map adds
a label. -/
def labelsFromTags (cfg : LabelConfig) (labels : List (String × String))
    (tags : List JValue) : List (String × String) :=
  tags.foldl
    (fun labels tag =>
      match tag with
      | .str s =>
          if pyContainsChar s ':' then
            let pv := splitOnceColon (pyLower (pyStrip s))
            if pv.1 ≠ "" && pv.2 ≠ "" then
              match (prefixColorMaps cfg).lookup pv.1 with
              | some colorMap =>
                  upsert labels (pv.1 ++ ":" ++ pv.2)
                    ((colorMap.lookup pv.2).getD cfg.defaultColor)
              | none => labels
            else labels
          else labels
      | _ => labels)
    labels

/-- The per-finding body of `derive_labels` (lines 762-794). -/
def labelsForFinding (cfg : LabelConfig) (labels : List (String × String))
    (finding : JValue) : Except String (List (String × String)) := do
  match finding with
  | .obj _ => do
      let tagsData := if (finding.get "tags").truthy then finding.get "tags" else .arr []
      let labels :=
        match tagsData with
        | .arr tags => labelsFromTags cfg labels tags
        | _ => labels
      let entryType := pyLower (← asStr (orEmptyStr (finding.get "type")))
      let labels ←
        if entryType = "resource" || finding.hasKey "changeType" then do
          let ctv := finding.get "changeType"
          let ct := pyLower (← asStr (if ctv.truthy then ctv else .str "other"))
          pure (upsert labels ("change:" ++ ct)
            ((cfg.changeTypeColors.lookup ct).getD cfg.defaultColor))
        else pure labels
      if entryType = "version" then do
        let subject := if (finding.get "subject").truthy then finding.get "subject" else .obj []
        let component :=
          if (finding.get "component").truthy then finding.get "component" else .obj []
        let updateKind ←
          if subject.isObj then do
            pure (pyLower (← asStr (orEmptyStr (subject.get "kind"))))
          else pure ""
        let updateKind ←
          if updateKind = "" && component.isObj then do
            pure (pyLower (← asStr (orEmptyStr (component.get "kind"))))
          else pure updateKind
        if updateKind ≠ "" then
          pure (upsert labels ("update:" ++ updateKind)
            ((cfg.updateColors.lookup updateKind).getD cfg.defaultColor))
        else pure labels
      else
        pure labels
  | _ => pure labels

/-- The `(data.get("overallRisk") or "UNKNOWN").upper()` fragment at line 796
of `derive_labels`. -/
def overallRiskOf (data : JValue) : Except String String := do
  let v := data.get "overallRisk"
  return pyUpper (← asStr (if v.truthy then v else .str "UNKNOWN"))

/-- `process_review.derive_labels`: the label-name → hex-color map derived
from the review data, finished by the single `risk:...` label. -/
def deriveLabels (cfg : LabelConfig) (data : JValue) :
    Except String (List (String × String)) := do
  let findings ← getFindings data
  let labels ← findings.foldlM (labelsForFinding cfg) []
  let overallRisk ← overallRiskOf data
  let riskLabel := "risk:" ++ pyLower overallRisk
  return upsert labels riskLabel
    ((cfg.riskColors.lookup overallRisk).getD cfg.defaultColor)

/-! ## `process_review.build_markdown`: the finding normalizer -/

/-- The normalised `subject` object (`from`/`to` stay arbitrary JSON values,
as in the source). -/
structure SubjectS where
  kind : String
  name : String
  fromV : JValue
  toV : JValue

/-- The normalised `location` object (only well-typed, non-empty components
are materialised). -/
structure LocationS where
  resource : Option String
  path : Option String
  line : Option Int
  column : Option Int

/-- A kept reference entry. -/
structure RefS where
  url : String
  note : String

/-- The fallible part of the per-finding normalisation in `build_markdown`
(lines 342-462): everything computed before the anchor is assigned.  In the
source the anchor assignment (line 464) is the last operation that can be
reached, and it never raises, so the per-finding exception handler can only
fire before the counter is touched. -/
structure CoreFinding where
  ftype : String
  risk : String
  summary : String
  subject : Option SubjectS
  location : Option LocationS
  title : String
  tags : List String
  cosmetic : Bool
  diff : List String
  snippet : List String
  yaml : List String
  references : List RefS

/-- `(x or "").strip()` on a JSON value. -/
def orStrip (v : JValue) : Except String String := do
  return pyStrip (← asStr (orEmptyStr v))

/-- `(x or "").strip().lower()` on a JSON value. -/
def orStripLower (v : JValue) : Except String String := do
  return pyLower (pyStrip (← asStr (orEmptyStr v)))

/-- The `add_tag` closure of `build_markdown`: strip+lowercase, then append
unless empty or already present (the `tag_set` membership check). -/
def addTag (acc : List String) (value : String) : List String :=
  let normalized := pyLower (pyStrip value)
  if normalized = "" || acc.contains normalized then acc else acc ++ [normalized]

/-- `item.get(k) or []`, then the `isinstance(…, list)` guard: the element
list when the (truthy) value is a list, otherwise no iteration. -/
def listOrNothing (v : JValue) : List JValue :=
  match (if v.truthy then v else .arr []) with
  | .arr xs => xs
  | _ => []

/-- `s.splitlines() if s else []`. -/
def splitOrEmpty (s : String) : List String :=
  if s ≠ "" then pySplitlines s else []

/-- The fallible per-finding normalisation of `build_markdown`
(lines 342-462), in source statement order. -/
def coreNormalize (item : JValue) : Except String CoreFinding := do
  let ft0 ← orStripLower (item.get "type")
  let ftype :=
    if ft0 ≠ "" then ft0
    else if item.hasKey "component" then "version"
    else if item.hasKey "resource" || item.hasKey "changeType" then "resource"
    else "finding"
  let riskV := item.get "risk"
  let risk ← if riskV.truthy then do pure (pyUpper (← asStr riskV)) else pure "UNKNOWN"
  let sum0 ← asStr (orEmptyStr (item.get "summary"))
  let summary := let t := truncate sum0 280; if t = "" then "n/a" else t
  let compData := if (item.get "component").isObj then item.get "component" else .obj []
  let subjData := if (item.get "subject").isObj then item.get "subject" else .obj []
  let subjData :=
    if !subjData.truthy && compData.truthy then
      .obj [("kind", compData.get "kind"), ("name", compData.get "name"),
            ("from", compData.get "from"), ("to", compData.get "to")]
    else subjData
  let subjectKind ← orStrip (subjData.get "kind")
  let subjectName ← orStrip (subjData.get "name")
  let subjFrom :=
    match subjData.get "from" with
    | .str s => let t := pyStrip s; if t = "" then .null else .str t
    | v => v
  let subjTo :=
    match subjData.get "to" with
    | .str s => let t := pyStrip s; if t = "" then .null else .str t
    | v => v
  let subject : Option SubjectS :=
    if subjectKind ≠ "" || subjectName ≠ "" then
      some ⟨subjectKind, subjectName, subjFrom, subjTo⟩
    else none
  let locData := if (item.get "location").isObj then item.get "location" else .obj []
  let locData :=
    if !locData.truthy && (item.get "resource").truthy then
      .obj [("resource", item.get "resource")]
    else locData
  let locResource :=
    match locData.get "resource" with
    | .str s => if pyStrip s ≠ "" then some (pyStrip s) else none
    | _ => none
  let locPath :=
    match locData.get "path" with
    | .str s => if pyStrip s ≠ "" then some (pyStrip s) else none
    | _ => none
  -- `isinstance(x, int)` holds for Python bools as well
  let locLine :=
    match locData.get "line" with
    | .num n => some n
    | .bool b => some (if b then (1 : Int) else 0)
    | _ => none
  let locColumn :=
    match locData.get "column" with
    | .num n => some n
    | .bool b => some (if b then (1 : Int) else 0)
    | _ => none
  let location : Option LocationS :=
    if locResource.isSome || locPath.isSome || locLine.isSome || locColumn.isSome then
      some ⟨locResource, locPath, locLine, locColumn⟩
    else none
  let t0 ← orStrip (item.get "title")
  let title :=
    if t0 ≠ "" then t0
    else if subjectName ≠ "" && (subjFrom.truthy || subjTo.truthy) then
      let fromLabel := pyStr (if subjFrom.truthy then subjFrom else .str "n/a")
      let toLabel := pyStr (if subjTo.truthy then subjTo else .str "n/a")
      subjectName ++ " " ++ fromLabel ++ " -> " ++ toLabel
    else if subjectName ≠ "" then subjectName
    else
      match location with
      | some loc =>
          match loc.resource with
          | some r => r
          | none => ftype ++ " finding"
      | none => ftype ++ " finding"
  let tags0 :=
    (listOrNothing (item.get "tags")).foldl
      (fun acc tag =>
        match tag with
        | .str s =>
            let normalized := pyLower (pyStrip s)
            if normalized = "" || acc.contains normalized then acc
            else acc ++ [normalized]
        | _ => acc)
      []
  let changeType ← orStripLower (item.get "changeType")
  let tags1 := if changeType ≠ "" then addTag tags0 ("change:" ++ changeType) else tags0
  let updateKind ←
    if ftype = "version" then do
      let base : JValue :=
        if subjectKind ≠ "" then .str subjectKind
        else orEmptyStr (compData.get "kind")
      pure (pyLower (pyStrip (← asStr base)))
    else pure ""
  let tags2 := if updateKind ≠ "" then addTag tags1 ("update:" ++ updateKind) else tags1
  let cosV :=
    if (item.get "cosmetic").isNull then item.get "isCosmetic" else item.get "cosmetic"
  let evid := if (item.get "evidence").isObj then item.get "evidence" else .obj []
  let diff ← orStrip (evid.get "diff")
  let snippet ← orStrip (evid.get "snippet")
  let yamlText ← orStrip (evid.get "yaml")
  let references ←
    (listOrNothing (item.get "references")).foldlM
      (fun (acc : List RefS) ref =>
        match ref with
        | .obj _ => do
            let url ← orStrip (ref.get "url")
            let note := truncate (← asStr (orEmptyStr (ref.get "note"))) 240
            if url ≠ "" || note ≠ "" then pure (acc ++ [⟨url, note⟩])
            else pure acc
        | _ => pure acc)
      []
  return ⟨ftype, risk, summary, subject, location, title, tags2, cosV.truthy,
    splitOrEmpty diff, splitOrEmpty snippet, splitOrEmpty yamlText, references⟩

/-- A fully normalised finding, as appended to `normalized_findings`
(lines 471-486). -/
structure Finding where
  type : String
  title : String
  summary : String
  risk : String
  tags : List String
  cosmetic : Bool
  anchor : String
  collapse : Bool
  subject : Option SubjectS
  location : Option LocationS
  diff : List String
  snippet : List String
  yaml : List String
  references : List RefS

/-- Build the normalised finding record from its fallible core and its
anchor; `collapse` is `risk not in {"HIGH", "MEDIUM"}`. -/
def finishFinding (cf : CoreFinding) (anchor : String) : Finding :=
  { type := cf.ftype, title := cf.title, summary := cf.summary, risk := cf.risk,
    tags := cf.tags, cosmetic := cf.cosmetic, anchor,
    collapse := !(cf.risk = "HIGH" || cf.risk = "MEDIUM"),
    subject := cf.subject, location := cf.location, diff := cf.diff,
    snippet := cf.snippet, yaml := cf.yaml, references := cf.references }

/-- One iteration of the normalisation loop of `build_markdown`: non-dict
items are skipped outright, a raising item is skipped by the per-finding
exception handler (leaving the anchor counter untouched), and a successful
item is assigned its anchor and appended. -/
def normStep (st : List Finding × Counter) (item : JValue) : List Finding × Counter :=
  if !item.isObj then st
  else
    match coreNormalize item with
    | .error _ => st
    | .ok cf =>
        let ac := makeAnchor st.2 "finding" cf.title "finding"
        (st.1 ++ [finishFinding cf ac.1], ac.2)

/-- The whole normalisation loop of `build_markdown`, starting from a fresh
per-render anchor counter. -/
def normalizeFindings (items : List JValue) : List Finding :=
  (items.foldl normStep ([], [])).1

/-- Within-group order: ascending `(risk_sort_key(risk), title)`
(line 499). -/
def findingLe (f g : Finding) : Prop :=
  riskSortKey (some f.risk) < riskSortKey (some g.risk)
  ∨ (riskSortKey (some f.risk) = riskSortKey (some g.risk) ∧ f.title ≤ g.title)

instance : DecidableRel findingLe := fun f g => by
  unfold findingLe; infer_instance

/-- The keys of `findings_by_type` in insertion order (first occurrence). -/
def firstKeys (fs : List Finding) : List String :=
  fs.foldl (fun acc f => if acc.contains f.type then acc else acc ++ [f.type]) []

/-- Grouping and sorting of `build_markdown` (lines 492-500): group by
`type`, group keys sorted lexicographically, entries of each group stably
sorted by `(risk_sort_key, title)`.  `List.insertionSort` is extensionally
the stable Python `list.sort`. -/
def findingGroups (fs : List Finding) : List (String × List Finding) :=
  (List.insertionSort (α := String) (· ≤ ·) (firstKeys fs)).map fun k =>
    (k, List.insertionSort findingLe (fs.filter fun f => f.type = k))

/-- The data handed to the external markdown template (lines 509-526). -/
structure RenderInput where
  verdict : String
  overallRisk : JValue
  summary : String
  headline : String
  findingGroups : List (String × List Finding)
  validationErrors : List String
  automationNote : Option String
  automerged : Option Bool

/-- `process_review.build_markdown` up to the render call: the template
itself is an external collaborator, so the model produces the values passed
to `template.render`. -/
def buildRenderInput (data : JValue) (validationErrors : List String)
    (automationNote : Option String := none) (automerged : Option Bool := none) :
    Except String RenderInput := do
  let findingsData ← getFindings data
  let fs := normalizeFindings findingsData
  let groups := findingGroups fs
  let summaryText := pyStrip (← asStr (orEmptyStr (data.get "summary")))
  let headline :=
    if summaryText ≠ "" then pyStrip ((pySplitlines summaryText).headD "")
    else "Automated Review Summary"
  return { verdict := if (data.get "approved").truthy then "Approved" else "Needs manual review",
           overallRisk :=
             if data.hasKey "overallRisk" then data.get "overallRisk" else .str "UNKNOWN",
           summary := summaryText, headline, findingGroups := groups,
           validationErrors, automationNote, automerged }

/-! ## `process_review.validate_review`: error sorting and formatting -/

/-- One step of a JSON pointer path, as `jsonschema` reports it: an array
index or a property name.  The `Lex` order places indices before names; on
the homogeneous comparisons Python's `list.sort` actually performs (mixed
`int`/`str` comparison raises `TypeError`), it coincides with Python's
element order. -/
abbrev PathPart := Lex (Nat ⊕ String)

/-- A validation error as surfaced by `jsonschema`'s `iter_errors`: its JSON
pointer path and its message. -/
structure SchemaErr where
  path : List PathPart
  message : String

/-- `errors.sort(key=lambda err: list(err.path))` (line 229): a stable sort
by the lexicographic order of paths. -/
def sortErrors (errors : List SchemaErr) : List SchemaErr :=
  List.insertionSort (fun a b => a.path ≤ b.path) errors

/-- `str(part)` on a path part. -/
def renderPart (p : PathPart) : String :=
  match (ofLex p : Nat ⊕ String) with
  | .inl n => Nat.repr n
  | .inr s => s

/-- Lines 233-234: `"/".join(str(part) for part in error.path) or "<root>"`,
then `f"{path}: {error.message}"`. -/
def renderErr (e : SchemaErr) : String :=
  let joined := String.intercalate "/" (e.path.map renderPart)
  (if joined = "" then "<root>" else joined) ++ ": " ++ e.message

/-- The error post-processing of `process_review.validate_review`
(lines 227-234): sort every collected violation by path, then format. -/
def formatErrors (errors : List SchemaErr) : List String :=
  (sortErrors errors).map renderErr

/-- Modelled from the spec: the external `jsonschema.Draft7Validator` (a
third-party library, not part of this repository's sources) applied to a
schema consisting of a single top-level `required` list.  Per Draft 7 it
reports, in schema order, one violation at the root path for each missing
property, with message `'<name>' is a required property`. -/
def requiredIterErrors (required : List String) (data : JValue) : List SchemaErr :=
  required.filterMap fun f =>
    if data.hasKey f then none
    else some ⟨[], "'" ++ f ++ "' is a required property"⟩

/-! ## `validate_json.py`: the structured-output validator -/

/-- `validate_json.VALID_RISK_LEVELS`. -/
def validRiskLevels : List String :=
  ["CRITICAL", "HIGH", "MEDIUM", "LOW", "NEGLIGIBLE"]

/-- The check `isinstance(finding["type"], str) and finding["type"].strip()`
of `_validate_findings`. -/
def entryTypeOk (f : JValue) : Bool :=
  match f.get "type" with
  | .str s => pyStrip s ≠ ""
  | _ => false

/-- The check `finding["risk"] in VALID_RISK_LEVELS` of `_validate_findings`
(`in` matches a string entry only against equal strings). -/
def entryRiskOk (f : JValue) : Bool :=
  match f.get "risk" with
  | .str s => validRiskLevels.contains s
  | _ => false

/-- The loop body of `validate_json._validate_findings`, indexed from `i`:
raises `ReviewValidationError` at the first offending entry. -/
def validateFindingsFrom (i : Nat) : List JValue → Except String Unit
  | [] => .ok ()
  | f :: rest =>
      match f with
      | .obj _ =>
          let missing := ["type", "title", "summary", "risk"].filter fun k => !f.hasKey k
          if !missing.isEmpty then
            .error ("Finding " ++ Nat.repr i ++ " missing required fields: "
              ++ String.intercalate ", " missing)
          else if !entryTypeOk f then
            .error ("Finding " ++ Nat.repr i
              ++ ": type must be a non-empty string, got " ++ (f.get "type").typeName)
          else if !entryRiskOk f then
            .error ("Finding " ++ Nat.repr i ++ ": risk must be one of the valid levels")
          else validateFindingsFrom (i + 1) rest
      | _ =>
          .error ("Finding " ++ Nat.repr i ++ " must be object, got " ++ f.typeName)

/-- `validate_json._validate_findings`. -/
def validateFindings (findings : List JValue) : Except String Unit :=
  validateFindingsFrom 0 findings

/-! ## Spec-side predicates and concrete fixtures -/

/-- Stated from the spec's words (§4.6): a findings entry violates the
claimed entry constraints when `type` is absent or not a non-empty string,
`title` is absent or not a string, `summary` is absent or not a string, or
`risk` is absent or outside the 5-level enum. -/
def specEntryViolates (f : JValue) : Bool :=
  !(match f.get "type" with | .str s => s ≠ "" | _ => false)
  || !(match f.get "title" with | .str _ => true | _ => false)
  || !(match f.get "summary" with | .str _ => true | _ => false)
  || !(match f.get "risk" with | .str s => validRiskLevels.contains s | _ => false)

/-- What `_validate_findings` actually accepts for a single entry: an object
carrying all four keys, whose `type` is a string with non-empty strip and
whose `risk` is one of the five enum strings; `title` and `summary` are only
checked for presence. -/
def codeEntryOk (f : JValue) : Bool :=
  f.isObj && ["type", "title", "summary", "risk"].all f.hasKey
  && entryTypeOk f && entryRiskOk f

/-- Decimal read-back of a digit string (proof support for the uniqueness of
`Nat.repr`, which `make_anchor`'s suffixes rely on). -/
def decodeDigits (cs : List Char) : Nat :=
  cs.foldl (fun acc c => acc * 10 + (c.toNat - '0'.toNat)) 0

/-- A findings entry whose `title` is the integer `1`: accepted by
`_validate_findings`, although the spec demands a string `title`. -/
def c5bad : JValue :=
  .obj [("type", .str "x"), ("title", .num 1), ("summary", .num 2), ("risk", .str "LOW")]

/-- Three raw findings whose derived titles are `x`, `x 1`, `x`: the third
anchor collides with the second. -/
def c6items : List JValue :=
  [.obj [("title", .str "x")], .obj [("title", .str "x 1")], .obj [("title", .str "x")]]

/-- A review payload carrying only the legacy `changes` key. -/
def c3data : JValue :=
  .obj [("approved", .bool true), ("overallRisk", .str "LOW"),
        ("summary", .str "ok"), ("changes", .arr [])]

/-- A label configuration with a color for the `UNKNOWN` risk. -/
def c9cfg : LabelConfig :=
  ⟨"6f42c1", [], [], [("UNKNOWN", "eeeeee")], []⟩

/-- A review payload whose `overallRisk` is present but the empty string. -/
def c9data : JValue :=
  .obj [("overallRisk", .str "")]

/-- One raw finding per risk level, titled `a` … `e`, all of type
`finding`. -/
def c10items : List JValue :=
  [.obj [("type", .str "finding"), ("risk", .str "CRITICAL"), ("title", .str "a")],
   .obj [("type", .str "finding"), ("risk", .str "HIGH"), ("title", .str "b")],
   .obj [("type", .str "finding"), ("risk", .str "UNKNOWN"), ("title", .str "c")],
   .obj [("type", .str "finding"), ("risk", .str "LOW"), ("title", .str "d")],
   .obj [("type", .str "finding"), ("risk", .str "MEDIUM"), ("title", .str "e")]]

/-- A no-match regex engine for concrete policy evaluations. -/
def engNone : RegexEngine := fun _ _ => some false

/-- A Renovate-style pull request. -/
def prRenovate : PullReq := ⟨some "renovate/bump-x", some "app-bot"⟩

/-- A prefix-only auto-merge configuration. -/
def cfgRenovate : AutoMergeConfig := ⟨true, ["renovate/"], [], []⟩

/-- A finding item whose `type` is the integer `5`, on which the per-finding
normalisation raises (`(5 or "").strip()`). -/
def c8bad : JValue := .obj [("type", .num 5)]

/-! ## Helper lemmas -/

theorem except_bind_ok {ε α β : Type} (x : Except ε α) (f : α → Except ε β) (b : β) :
    (x >>= f) = .ok b ↔ ∃ a, x = .ok a ∧ f a = .ok b := by
  cases x <;> simp [Bind.bind, Except.bind]

theorem upsert_lookup {β : Type} (m : List (String × β)) (k : String) (v : β) :
    (upsert m k v).lookup k = some v := by
  induction m with
  | nil => simp [upsert, List.lookup]
  | cons kv rest ih =>
      obtain ⟨k', v'⟩ := kv
      by_cases h : k' = k
      · simp [upsert, h, List.lookup]
      · have hne : (k == k') = false := beq_eq_false_iff_ne.mpr fun e => h e.symm
        simp [upsert, h, List.lookup, hne, ih]

theorem cGet_cSet (ctr : Counter) (k : String) (v : Nat) :
    cGet (cSet ctr k v) k = v := by
  unfold cGet cSet
  rw [upsert_lookup]
  rfl

/-! ## C1: the auto-merge gate in `main` -/

/-- C1: `main` reaches the auto-merge action exactly when the skip-merge
override is off, the schema-validation error list is empty, the report's
`approved` field coerces to true, and the policy allowed the PR; the policy
term `shouldAutoMerge eng pr cfg` takes no environment argument, matching the
source in which `should_auto_merge` never reads the skip-merge override. -/
theorem autoMerge_gate_iff (env : String → Option String) (data : JValue)
    (errs : List String) (eng : RegexEngine) (pr : PullReq) (cfg : AutoMergeConfig) :
    mergeActionTaken env data errs eng pr cfg = true ↔
      shouldSkipMerge env = false ∧ errs = [] ∧
        (data.get "approved").truthy = true ∧ (shouldAutoMerge eng pr cfg).1 = true := by
  unfold mergeActionTaken willAutoMerge
  by_cases h : shouldSkipMerge env <;>
    simp [h, List.isEmpty_iff, and_assoc]

/-! ## C3: what the loader returns -/

/-- C3 counterexample: a payload accepted by the loader that carries only the
legacy `changes` key is returned without a `findings` key — the loader hands
back the parsed object unchanged. -/
theorem loadReviewData_changes_only_lacks_findings :
    loadReviewData c3data = .ok c3data ∧ c3data.hasKey "findings" = false := by
  exact ⟨rfl, rfl⟩

/-- C3, amended: on success `load_review_data` returns the parsed payload
itself, unchanged; `findings`/`changes` aliasing is resolved only at access
time (by `_get_findings`), not in the loaded object. -/
theorem loadReviewData_returns_payload_unchanged (data : JValue) (vs : Bool)
    (out : JValue) (h : loadReviewData data vs = .ok out) : out = data := by
  unfold loadReviewData at h
  cases hc : loadChecks data vs with
  | ok u => rw [hc] at h; cases h; rfl
  | error e => rw [hc] at h; cases h

/-- C3 witness: the amended theorem applied to the `changes`-only payload. -/
theorem loadReviewData_returns_payload_unchanged_witness :
    loadReviewData c3data true = .ok c3data ∧ c3data = c3data :=
  ⟨rfl, loadReviewData_returns_payload_unchanged c3data true c3data rfl⟩

/-! ## C5: the structured-output findings validator -/

/-- C5 counterexample: an entry whose `title` is the integer `1` (and whose
`summary` is an integer as well) violates the claimed entry constraints, yet
`_validate_findings` accepts it — the validator checks `title`/`summary` for
presence only, never for being strings. -/
theorem validateFindings_accepts_nonstring_title :
    specEntryViolates c5bad = true ∧ validateFindings [c5bad] = .ok () := by
  exact ⟨rfl, rfl⟩

/-- C5, amended: `_validate_findings` accepts a findings list exactly when
every entry is an object carrying the four required keys, whose `type` is a
string that is non-empty after stripping and whose `risk` is one of the five
enum values; `title` and `summary` are checked for presence only. -/
theorem filter_not_hasKey_isEmpty (f : JValue) (keys : List String) :
    (keys.filter fun k => !f.hasKey k).isEmpty = keys.all f.hasKey := by
  induction keys with
  | nil => rfl
  | cons k rest ih =>
      by_cases h : f.hasKey k <;>
        simp [List.filter_cons, List.all_cons, h, ih]

theorem validateFindings_acceptance (findings : List JValue) :
    validateFindings findings = .ok () ↔ ∀ f ∈ findings, codeEntryOk f = true := by
  show validateFindingsFrom 0 findings = .ok () ↔ _
  generalize 0 = i
  induction findings generalizing i with
  | nil => simp [validateFindingsFrom]
  | cons f rest ih =>
      cases f with
      | obj kvs =>
          simp only [validateFindingsFrom, filter_not_hasKey_isEmpty,
            List.forall_mem_cons]
          by_cases h1 : List.all ["type", "title", "summary", "risk"]
              (JValue.obj kvs).hasKey
          · by_cases h2 : entryTypeOk (.obj kvs)
            · by_cases h3 : entryRiskOk (.obj kvs)
              · simp [h1, h2, h3, ih, codeEntryOk, isObj]
              · simp [h1, h2, h3, codeEntryOk, isObj]
            · simp [h1, h2, codeEntryOk, isObj]
          · simp [h1, codeEntryOk, isObj]
      | null => simp [validateFindingsFrom, codeEntryOk, isObj]
      | bool b => simp [validateFindingsFrom, codeEntryOk, isObj]
      | num n => simp [validateFindingsFrom, codeEntryOk, isObj]
      | str s => simp [validateFindingsFrom, codeEntryOk, isObj]
      | arr xs => simp [validateFindingsFrom, codeEntryOk, isObj]

/-! ## C10: `risk_sort_key` on the full risk enum -/

/-- C10: `risk_sort_key` recognises only HIGH (0), MEDIUM (1), LOW (2) and
UNKNOWN (3); `CRITICAL` and `NEGLIGIBLE` — valid risks in the structured
output validator's enum — fall through to key 4 like every unrecognised
value, and therefore order after UNKNOWN, so within a `build_markdown` group
a CRITICAL finding sorts last. -/
theorem riskSortKey_unrecognized :
    riskSortKey (some "HIGH") = 0 ∧ riskSortKey (some "MEDIUM") = 1 ∧
    riskSortKey (some "LOW") = 2 ∧ riskSortKey (some "UNKNOWN") = 3 ∧
    riskSortKey (some "CRITICAL") = 4 ∧ riskSortKey (some "NEGLIGIBLE") = 4 ∧
    "CRITICAL" ∈ validRiskLevels ∧ "NEGLIGIBLE" ∈ validRiskLevels ∧
    (∀ v : Option String, normalizeRisk v ∉ ["HIGH", "MEDIUM", "LOW", "UNKNOWN"] →
      riskSortKey v = 4) ∧
    (findingGroups (normalizeFindings c10items)).map (fun g => (g.1, g.2.map (·.risk)))
      = [("finding", ["HIGH", "MEDIUM", "LOW", "UNKNOWN", "CRITICAL"])] := by
  refine ⟨rfl, rfl, rfl, rfl, rfl, rfl, by decide, by decide, ?_, by decide⟩
  intro v hv
  simp only [List.mem_cons, List.not_mem_nil, or_false, not_or] at hv
  obtain ⟨h1, h2, h3, h4⟩ := hv
  unfold riskSortKey riskPriority
  have e1 : (normalizeRisk v == "HIGH") = false := beq_eq_false_iff_ne.mpr h1
  have e2 : (normalizeRisk v == "MEDIUM") = false := beq_eq_false_iff_ne.mpr h2
  have e3 : (normalizeRisk v == "LOW") = false := beq_eq_false_iff_ne.mpr h3
  have e4 : (normalizeRisk v == "UNKNOWN") = false := beq_eq_false_iff_ne.mpr h4
  simp [List.lookup, e1, e2, e3, e4]

/-- C10 witness: the unrecognised-value clause applied to `CRITICAL`. -/
theorem riskSortKey_unrecognized_witness :
    normalizeRisk (some "CRITICAL") ∉ ["HIGH", "MEDIUM", "LOW", "UNKNOWN"] ∧
    riskSortKey (some "CRITICAL") = 4 :=
  ⟨by decide,
    riskSortKey_unrecognized.2.2.2.2.2.2.2.2.1 (some "CRITICAL") (by decide)⟩

/-! ## C6: anchor uniqueness -/

/-- C6 counterexample: within a single render, titles `x`, `x 1`, `x` produce
anchors `finding-x`, `finding-x-1`, `finding-x-1` — the disambiguation suffix
of the duplicated `x` collides with the slug of `x 1`, so the anchors of the
normalised findings are not pairwise distinct. -/
theorem buildMarkdown_anchor_collision :
    (normalizeFindings c6items).map (·.anchor)
      = ["finding-x", "finding-x-1", "finding-x-1"] ∧
    ¬ List.Pairwise (· ≠ ·) ((normalizeFindings c6items).map (·.anchor)) := by
  exact ⟨by decide, by decide⟩

/-! ## C8: one bad finding never aborts the render -/

theorem normStep_error (st : List Finding × Counter) (item : JValue) (e : String)
    (h : coreNormalize item = .error e) : normStep st item = st := by
  unfold normStep
  by_cases hobj : !item.isObj
  · simp [hobj]
  · simp [hobj, h]

/-- C8: a finding entry on which the per-finding normalisation raises is
dropped and nothing else changes: the remaining entries normalise exactly as
if the bad entry were absent (the anchor counter is untouched, since the
anchor assignment is the last reachable operation and never raises), and the
grouped render input is likewise unchanged — normalisation as a whole never
fails. -/
theorem normalizeFindings_skips_failing (pre suf : List JValue) (item : JValue)
    (e : String) (h : coreNormalize item = .error e) :
    normalizeFindings (pre ++ item :: suf) = normalizeFindings (pre ++ suf) ∧
    findingGroups (normalizeFindings (pre ++ item :: suf))
      = findingGroups (normalizeFindings (pre ++ suf)) := by
  have key : ∀ init : List Finding × Counter,
      (pre ++ item :: suf).foldl normStep init = (pre ++ suf).foldl normStep init := by
    intro init
    rw [List.foldl_append, List.foldl_append, List.foldl_cons, normStep_error _ _ _ h]
  refine ⟨?_, ?_⟩ <;> unfold normalizeFindings <;> rw [key]

/-- C8 witness: the finding `{"type": 5}` raises during normalisation and is
skipped, leaving the surrounding findings' normalisation unchanged. -/
theorem normalizeFindings_skips_failing_witness :
    coreNormalize c8bad = .error "'int' object has no string methods" ∧
    normalizeFindings ([JValue.obj [("title", .str "k")]] ++ c8bad :: [])
      = normalizeFindings ([JValue.obj [("title", .str "k")]] ++ []) :=
  ⟨rfl, (normalizeFindings_skips_failing [JValue.obj [("title", .str "k")]] [] c8bad
    "'int' object has no string methods" rfl).1⟩

/-! ## C9: the final `risk:` label -/

/-- C9 counterexample: a report whose `overallRisk` is present but the empty
string gets the label `risk:unknown` (the source defaults on every falsy
value, not only on an absent key), while the claimed key
`"risk:" + lower(overallRisk) = "risk:"` is not in the map. -/
theorem deriveLabels_empty_risk_label :
    c9data.get "overallRisk" = .str "" ∧
    deriveLabels c9cfg c9data = .ok [("risk:unknown", "eeeeee")] ∧
    ("risk:" ++ pyLower "") = "risk:" ∧
    ([("risk:unknown", "eeeeee")] : List (String × String)).lookup "risk:" = none := by
  exact ⟨rfl, rfl, rfl, rfl⟩

/-- C9, amended: whenever `derive_labels` succeeds, the returned map sends
the key `"risk:" + lower(overallRisk)` — where `overallRisk` is the
uppercased field, defaulting to `UNKNOWN` whenever the field is absent or
falsy (empty, null, false, 0) — to the risk color map's entry for it, or to
the default color when unmapped. -/
theorem deriveLabels_risk_label (cfg : LabelConfig) (data : JValue)
    (labels : List (String × String)) (h : deriveLabels cfg data = .ok labels) :
    ∃ r, overallRiskOf data = .ok r ∧
      labels.lookup ("risk:" ++ pyLower r)
        = some ((cfg.riskColors.lookup r).getD cfg.defaultColor) := by
  unfold deriveLabels at h
  obtain ⟨fs, hfs, h⟩ := (except_bind_ok _ _ _).mp h
  obtain ⟨l0, hl0, h⟩ := (except_bind_ok _ _ _).mp h
  obtain ⟨r, hr, h⟩ := (except_bind_ok _ _ _).mp h
  refine ⟨r, hr, ?_⟩
  cases h
  exact upsert_lookup l0 _ _

/-- C9 witness: the amended theorem applied to the empty-risk report. -/
theorem deriveLabels_risk_label_witness :
    ∃ r, overallRiskOf c9data = .ok r ∧
      ([("risk:unknown", "eeeeee")] : List (String × String)).lookup ("risk:" ++ pyLower r)
        = some ((c9cfg.riskColors.lookup r).getD c9cfg.defaultColor) :=
  deriveLabels_risk_label c9cfg c9data [("risk:unknown", "eeeeee")] rfl

/-! ## C4: schema-validation error collection, ordering and format -/

/-- C4: `validate_review` keeps every collected violation (the output is a
permutation of the rendered inputs, never truncated), emits them sorted by
the lexicographic order of their JSON pointer paths — an order in which the
empty path comes first — renders each as `"<path>: <message>"` with the empty
path shown as `<root>`, and on the spec's concrete scenario (a schema
requiring `["a", "b"]` against `{}`, via the modelled Draft-7 `required`
behaviour) produces the two error strings in ascending field order. -/
theorem validateReview_error_order (errors : List SchemaErr) :
    (formatErrors errors).Perm (errors.map renderErr) ∧
    List.Sorted (· ≤ ·) ((sortErrors errors).map (·.path)) ∧
    formatErrors errors = (sortErrors errors).map renderErr ∧
    (∀ p : List PathPart, ([] : List PathPart) ≤ p) ∧
    (∀ e : SchemaErr, e.path = [] → renderErr e = "<root>: " ++ e.message) ∧
    formatErrors (requiredIterErrors ["a", "b"] (.obj []))
      = ["<root>: 'a' is a required property", "<root>: 'b' is a required property"] := by
  haveI ht : IsTotal SchemaErr (fun a b => a.path ≤ b.path) :=
    ⟨fun a b => le_total a.path b.path⟩
  haveI htr : IsTrans SchemaErr (fun a b => a.path ≤ b.path) :=
    ⟨fun a b c hab hbc => le_trans hab hbc⟩
  refine ⟨?_, ?_, rfl, ?_, ?_, by decide⟩
  · exact (List.perm_insertionSort _ errors).map renderErr
  · show List.Sorted (· ≤ ·)
      ((List.insertionSort (fun a b => a.path ≤ b.path) errors).map fun e => e.path)
    exact List.pairwise_map.mpr
      (List.sorted_insertionSort (fun a b : SchemaErr => a.path ≤ b.path) errors)
  · intro p
    exact List.nil_le
  · intro e hp
    simp [renderErr, hp, String.intercalate]

/-- C4 witness: the `<root>` rendering clause applied to a concrete
root-path error. -/
theorem validateReview_error_order_witness :
    (⟨[], "boom"⟩ : SchemaErr).path = [] ∧
    renderErr ⟨[], "boom"⟩ = "<root>: " ++ (⟨[], "boom"⟩ : SchemaErr).message :=
  ⟨rfl, (validateReview_error_order []).2.2.2.2.1 ⟨[], "boom"⟩ rfl⟩

/-! ## `pyStrip` properties -/

/-- Both visible ends of a character list avoid the predicate. -/
def CleanEnds (p : Char → Bool) (cs : List Char) : Prop :=
  (∀ c, cs.head? = some c → p c = false) ∧ (∀ c, cs.getLast? = some c → p c = false)

theorem dropWhile_eq_self_of_head (p : Char → Bool) (cs : List Char)
    (h : ∀ c, cs.head? = some c → p c = false) : cs.dropWhile p = cs := by
  cases cs with
  | nil => rfl
  | cons c t => rw [List.dropWhile_cons, h c rfl]; simp

theorem head?_dropWhile_false (p : Char → Bool) (l : List Char) (c : Char)
    (h : (l.dropWhile p).head? = some c) : p c = false := by
  have hm := List.head?_dropWhile_not p l
  rw [h] at hm
  exact hm

theorem pyStripList_cleanEnds (cs : List Char) : CleanEnds pyIsSpace (pyStripList cs) := by
  unfold pyStripList
  set A := cs.dropWhile pyIsSpace with hA
  set B := A.reverse.dropWhile pyIsSpace with hB
  have hsplit : A.reverse.takeWhile pyIsSpace ++ B = A.reverse :=
    List.takeWhile_append_dropWhile pyIsSpace A.reverse
  have hA' : B.reverse ++ (A.reverse.takeWhile pyIsSpace).reverse = A := by
    rw [← List.reverse_append, hsplit, List.reverse_reverse]
  constructor
  · intro c hc
    have hc' : A.head? = some c := by
      cases hBr : B.reverse with
      | nil => rw [hBr] at hc; cases hc
      | cons d t =>
          rw [hBr] at hc
          simp only [List.head?_cons, Option.some.injEq] at hc
          rw [← hA', hBr, List.cons_append, List.head?_cons, hc]
    exact head?_dropWhile_false pyIsSpace cs c (hA ▸ hc')
  · intro c hc
    rw [List.getLast?_reverse] at hc
    exact head?_dropWhile_false pyIsSpace A.reverse c (hB ▸ hc)

theorem pyStripList_eq_self (cs : List Char) (h : CleanEnds pyIsSpace cs) :
    pyStripList cs = cs := by
  unfold pyStripList
  have h2 : cs.reverse.dropWhile pyIsSpace = cs.reverse :=
    dropWhile_eq_self_of_head _ _ (fun c hc => h.2 c (by rwa [List.head?_reverse] at hc))
  rw [dropWhile_eq_self_of_head _ _ h.1, h2, List.reverse_reverse]

theorem pyStripList_idem (cs : List Char) :
    pyStripList (pyStripList cs) = pyStripList cs :=
  pyStripList_eq_self _ (pyStripList_cleanEnds cs)

theorem pyStrip_idem (s : String) : pyStrip (pyStrip s) = pyStrip s := by
  show String.mk (pyStripList (pyStripList s.data)) = String.mk (pyStripList s.data)
  exact congrArg String.mk (pyStripList_idem s.data)

theorem pyStrip_length_le (s : String) : (pyStrip s).length ≤ s.length := by
  show (pyStripList s.data).length ≤ s.data.length
  unfold pyStripList
  have l1 : (s.data.dropWhile pyIsSpace).length ≤ s.data.length :=
    (List.dropWhile_sublist _).length_le
  have l2 : ((s.data.dropWhile pyIsSpace).reverse.dropWhile pyIsSpace).length
      ≤ (s.data.dropWhile pyIsSpace).reverse.length :=
    (List.dropWhile_sublist _).length_le
  simp only [List.length_reverse] at *
  omega

/-! ## C7: `truncate` idempotence -/

theorem truncate_within (text : String) (limit : Int)
    (h : (text.length : Int) ≤ limit) : truncate text limit = pyStrip text := by
  unfold truncate
  have hl : ((pyStrip text).length : Int) ≤ limit :=
    le_trans (by exact_mod_cast pyStrip_length_le text) h
  simp [hl]

theorem truncate_over (text : String) (limit : Int)
    (h : ¬ ((pyStrip text).length : Int) ≤ limit) :
    truncate text limit = pySliceTo (pyStrip text) (limit - 3) ++ "..." := by
  unfold truncate
  simp [h]

theorem truncate_idem_of_three_le (text : String) (limit : Int) (h3 : 3 ≤ limit) :
    truncate (truncate text limit) limit = truncate text limit := by
  set t := pyStrip text with ht
  by_cases hle : (t.length : Int) ≤ limit
  · have e1 : truncate text limit = t := by unfold truncate; simp [← ht, hle]
    rw [e1]
    unfold truncate
    have hst : pyStrip t = t := by rw [ht, pyStrip_idem]
    rw [hst]
    simp [hle]
  · have e1 : truncate text limit = pySliceTo t (limit - 3) ++ "..." :=
      truncate_over text limit hle
    set k := (limit - 3).toNat with hk
    have hk3 : (0 : Int) ≤ limit - 3 := by omega
    have hkv : (k : Int) = limit - 3 := by rw [hk]; exact Int.toNat_of_nonneg hk3
    have hgt : limit < (t.length : Int) := by omega
    have hkl : k < t.data.length := by
      have : (k : Int) < (t.data.length : Int) := by
        have : (t.length : Int) = (t.data.length : Int) := rfl
        omega
      exact_mod_cast this
    set r := pySliceTo t (limit - 3) ++ "..." with hr
    have hr_data : r.data = t.data.take k ++ ['.', '.', '.'] := by
      rw [hr, String.data_append]
      unfold pySliceTo
      rw [if_pos hk3]
    have hr_len : (r.length : Int) = limit := by
      have hlen : r.length = k + 3 := by
        show r.data.length = k + 3
        rw [hr_data, List.length_append, List.length_take,
          min_eq_left (le_of_lt hkl)]
        rfl
      rw [hlen]
      push_cast
      omega
    have hclean : CleanEnds pyIsSpace r.data := by
      constructor
      · intro c hc
        rw [hr_data] at hc
        cases htk : t.data.take k with
        | nil =>
            rw [htk] at hc
            simp only [List.nil_append, List.head?_cons, Option.some.injEq] at hc
            rw [← hc]; decide
        | cons d rest =>
            rw [htk] at hc
            simp only [List.cons_append, List.head?_cons, Option.some.injEq] at hc
            have hhead : t.data.head? = some d := by
              cases hd : t.data with
              | nil => rw [hd] at htk; simp at htk
              | cons e t' =>
                  rw [hd] at htk
                  cases hkz : k with
                  | zero => rw [hkz] at htk; simp at htk
                  | succ k' =>
                      rw [hkz, List.take_succ_cons] at htk
                      have : e = d := (List.cons.injEq _ _ _ _).mp htk |>.1
                      rw [this]
                      rfl
            rw [← hc]
            exact (pyStripList_cleanEnds text.data).1 d hhead
      · intro c hc
        rw [hr_data] at hc
        rw [List.getLast?_append,
          show (['.', '.', '.'] : List Char).getLast? = some '.' from rfl] at hc
        injection hc with hcc
        rw [← hcc]; decide
    have hstrip : pyStrip r = r := by
      show String.mk (pyStripList r.data) = r
      rw [pyStripList_eq_self r.data hclean]
    rw [e1]
    show truncate r limit = r
    unfold truncate
    rw [hstrip]
    show (if (r.length : Int) ≤ limit then r else pySliceTo r (limit - 3) ++ "...") = r
    rw [hr_len]
    simp

/-- C7 counterexample: at `limit = 1` (Python slicing with a negative stop),
`truncate` is not idempotent: `truncate("aaaa", 1) = "aa..."`, but a second
application yields `"aa...."`. -/
theorem truncate_not_idempotent_at_one :
    truncate (truncate "aaaa" 1) 1 ≠ truncate "aaaa" 1 ∧
    truncate "aaaa" 1 = "aa..." ∧ truncate "aa..." 1 = "aa...." := by
  exact ⟨by decide, by decide, by decide⟩

/-- C7, amended: `truncate` is idempotent for every limit of at least 3 (the
regime every call site uses — the default is 300, the callers pass 280 and
240; for limits 1, 2 and negative limits the `limit - 3` slice stop wraps
around and idempotence fails); and for every limit, when the text's length is
within the limit the result is the text stripped of surrounding
whitespace. -/
theorem truncate_idempotent_spec :
    (∀ (text : String) (limit : Int), 3 ≤ limit →
      truncate (truncate text limit) limit = truncate text limit) ∧
    (∀ (text : String) (limit : Int), (text.length : Int) ≤ limit →
      truncate text limit = pyStrip text) :=
  ⟨truncate_idem_of_three_le, truncate_within⟩

/-- C7 witness: both clauses of the amended claim at concrete inputs. -/
theorem truncate_idempotent_spec_witness :
    ((3 : Int) ≤ 280 ∧ truncate (truncate " a  b " 280) 280 = truncate " a  b " 280) ∧
    ((" a  b ".length : Int) ≤ 280 ∧ truncate " a  b " 280 = pyStrip " a  b ") :=
  ⟨⟨by decide, truncate_idempotent_spec.1 " a  b " 280 (by decide)⟩,
   ⟨by decide, truncate_idempotent_spec.2 " a  b " 280 (by decide)⟩⟩

/-! ## C2: the auto-merge policy -/

theorem mem_prefixMatches (cfg : AutoMergeConfig) (branch s : String) :
    s ∈ prefixMatches cfg branch ↔
      ∃ p ∈ cfg.branchPrefixes, pyStartswith branch p = true
        ∧ s = "branch prefix '" ++ p ++ "'" := by
  unfold prefixMatches
  rw [List.mem_filterMap]
  constructor
  · rintro ⟨p, hp, hf⟩
    by_cases hc : pyStartswith branch p
    · rw [if_pos hc] at hf
      injection hf with hf
      exact ⟨p, hp, hc, hf.symm⟩
    · rw [if_neg hc] at hf; cases hf
  · rintro ⟨p, hp, hc, rfl⟩
    exact ⟨p, hp, by rw [if_pos hc]⟩

theorem mem_regexMatches (eng : RegexEngine) (cfg : AutoMergeConfig)
    (branch s : String) :
    s ∈ regexMatches eng cfg branch ↔
      ∃ rx ∈ cfg.branchRegexes, eng rx branch = some true
        ∧ s = "branch regex '" ++ rx ++ "'" := by
  unfold regexMatches
  rw [List.mem_filterMap]
  constructor
  · rintro ⟨rx, hrx, hf⟩
    cases hres : eng rx branch with
    | none => rw [hres] at hf; cases hf
    | some b =>
        cases b with
        | false => rw [hres] at hf; cases hf
        | true =>
            rw [hres] at hf
            injection hf with hf
            exact ⟨rx, hrx, hres, hf.symm⟩
  · rintro ⟨rx, hrx, hres, rfl⟩
    exact ⟨rx, hrx, by rw [hres]⟩

theorem mem_authorMatches (cfg : AutoMergeConfig) (author s : String) :
    s ∈ authorMatches cfg author ↔
      author ≠ "" ∧ author ∈ cfg.authorLogins ∧ s = "author '" ++ author ++ "'" := by
  unfold authorMatches
  by_cases hne : author = ""
  · simp [hne]
  · by_cases hmem : author ∈ cfg.authorLogins
    · have : cfg.authorLogins.contains author = true := List.elem_iff.mpr hmem
      simp [hne, this, hmem, eq_comm]
    · have : cfg.authorLogins.contains author = false := by
        rw [← Bool.not_eq_true]
        intro hcon
        exact hmem (List.elem_iff.mp hcon)
      simp [hne, this, hmem]

/-- C2: the full decision table of `should_auto_merge`, on configurations
normalised by `get_auto_merge_config` (whose `_normalize_string_list` drops
whitespace-only entries, whence the hypothesis that no author login is the
empty string): disabled short-circuits; empty rule lists allow everything;
otherwise the PR is allowed exactly when the branch starts with a listed
prefix, the engine matches a listed regex against the branch (uncompilable
patterns are skipped, not fatal), or the author login equals a listed login —
with the reason the `"; "`-joined match descriptions on allow, and a
`no rules matched` message naming whichever of branch/author is non-empty on
deny. -/
theorem shouldAutoMerge_characterization (eng : RegexEngine) (pr : PullReq)
    (cfg : AutoMergeConfig) (hlog : "" ∉ cfg.authorLogins) :
    (cfg.enabled = false →
      shouldAutoMerge eng pr cfg = (false, "disabled in repo config")) ∧
    (cfg.enabled = true → cfg.branchPrefixes = [] → cfg.branchRegexes = [] →
      cfg.authorLogins = [] →
      shouldAutoMerge eng pr cfg = (true, "enabled for all PRs")) ∧
    (cfg.enabled = true →
      ¬(cfg.branchPrefixes = [] ∧ cfg.branchRegexes = [] ∧ cfg.authorLogins = []) →
      (((shouldAutoMerge eng pr cfg).1 = true ↔
          (∃ p ∈ cfg.branchPrefixes, pyStartswith (branchOf pr) p = true) ∨
          (∃ rx ∈ cfg.branchRegexes, eng rx (branchOf pr) = some true) ∨
          authorOf pr ∈ cfg.authorLogins) ∧
        ((shouldAutoMerge eng pr cfg).1 = true →
          (shouldAutoMerge eng pr cfg).2 = String.intercalate "; "
              (matchedRules eng cfg (branchOf pr) (authorOf pr)) ∧
          ∀ s, s ∈ matchedRules eng cfg (branchOf pr) (authorOf pr) ↔
            ((∃ p ∈ cfg.branchPrefixes, pyStartswith (branchOf pr) p = true
                ∧ s = "branch prefix '" ++ p ++ "'") ∨
             (∃ rx ∈ cfg.branchRegexes, eng rx (branchOf pr) = some true
                ∧ s = "branch regex '" ++ rx ++ "'") ∨
             (authorOf pr ∈ cfg.authorLogins
                ∧ s = "author '" ++ authorOf pr ++ "'"))) ∧
        ((shouldAutoMerge eng pr cfg).1 = false →
          (shouldAutoMerge eng pr cfg).2 =
            if branchOf pr ≠ "" then
              if authorOf pr ≠ "" then
                "no rules matched for " ++ ("branch '" ++ branchOf pr ++ "'")
                  ++ ", " ++ ("author '" ++ authorOf pr ++ "'")
              else "no rules matched for " ++ ("branch '" ++ branchOf pr ++ "'")
            else if authorOf pr ≠ "" then
              "no rules matched for " ++ ("author '" ++ authorOf pr ++ "'")
            else "no rules matched"))) := by
  have hpair : ∀ x y : String, String.intercalate ", " [x, y] = x ++ ", " ++ y := by
    intro x y; simp [String.intercalate, String.intercalate.go]
  have hsingle : ∀ sep x : String, String.intercalate sep [x] = x := by
    intro sep x; simp [String.intercalate, String.intercalate.go]
  refine ⟨?_, ?_, ?_⟩
  · intro he; simp [shouldAutoMerge, he]
  · intro he h1 h2 h3; simp [shouldAutoMerge, he, h1, h2, h3]
  · intro he hne
    have hflag : (cfg.branchPrefixes.isEmpty && cfg.branchRegexes.isEmpty
        && cfg.authorLogins.isEmpty) = false := by
      by_contra hcon
      rw [Bool.not_eq_false] at hcon
      simp only [Bool.and_eq_true, List.isEmpty_iff] at hcon
      exact hne ⟨hcon.1.1, hcon.1.2, hcon.2⟩
    set branch := branchOf pr with hbr
    set author := authorOf pr with hau
    set matched := matchedRules eng cfg branch author with hmdef
    have hd : shouldAutoMerge eng pr cfg =
        (if !matched.isEmpty then (true, String.intercalate "; " matched)
         else if branch ≠ "" || author ≠ "" then
           (false, "no rules matched for " ++ String.intercalate ", "
             ((if branch ≠ "" then ["branch '" ++ branch ++ "'"] else [])
              ++ (if author ≠ "" then ["author '" ++ author ++ "'"] else [])))
         else (false, "no rules matched")) := by
      unfold shouldAutoMerge
      rw [he, hflag]
      simp
    have hmem : ∀ s, s ∈ matched ↔
        ((∃ p ∈ cfg.branchPrefixes, pyStartswith branch p = true
            ∧ s = "branch prefix '" ++ p ++ "'") ∨
         (∃ rx ∈ cfg.branchRegexes, eng rx branch = some true
            ∧ s = "branch regex '" ++ rx ++ "'") ∨
         (author ∈ cfg.authorLogins ∧ s = "author '" ++ author ++ "'")) := by
      intro s
      rw [hmdef]
      unfold matchedRules
      simp only [List.mem_append, mem_prefixMatches, mem_regexMatches,
        mem_authorMatches]
      constructor
      · rintro ((h | h) | h)
        · exact Or.inl h
        · exact Or.inr (Or.inl h)
        · exact Or.inr (Or.inr ⟨h.2.1, h.2.2⟩)
      · rintro (h | h | h)
        · exact Or.inl (Or.inl h)
        · exact Or.inl (Or.inr h)
        · exact Or.inr ⟨fun h0 => hlog (h0 ▸ h.1), h.1, h.2⟩
    have hne_iff : matched ≠ [] ↔
        ((∃ p ∈ cfg.branchPrefixes, pyStartswith branch p = true) ∨
         (∃ rx ∈ cfg.branchRegexes, eng rx branch = some true) ∨
         author ∈ cfg.authorLogins) := by
      constructor
      · intro hnn
        obtain ⟨s, hs⟩ := List.exists_mem_of_ne_nil matched hnn
        rcases (hmem s).mp hs with ⟨p, hp, hc, _⟩ | ⟨rx, hrx, hc, _⟩ | ⟨hm, _⟩
        · exact Or.inl ⟨p, hp, hc⟩
        · exact Or.inr (Or.inl ⟨rx, hrx, hc⟩)
        · exact Or.inr (Or.inr hm)
      · intro h
        rcases h with ⟨p, hp, hc⟩ | ⟨rx, hrx, hc⟩ | hm
        · exact List.ne_nil_of_mem ((hmem _).mpr (Or.inl ⟨p, hp, hc, rfl⟩))
        · exact List.ne_nil_of_mem ((hmem _).mpr (Or.inr (Or.inl ⟨rx, hrx, hc, rfl⟩)))
        · exact List.ne_nil_of_mem ((hmem _).mpr (Or.inr (Or.inr ⟨hm, rfl⟩)))
    by_cases hm0 : matched.isEmpty
    · -- no rule matched: the decision is a deny with the detailed reason
      have hnil : matched = [] := List.isEmpty_iff.mp hm0
      have hd' : shouldAutoMerge eng pr cfg =
          (if branch ≠ "" || author ≠ "" then
            (false, "no rules matched for " ++ String.intercalate ", "
              ((if branch ≠ "" then ["branch '" ++ branch ++ "'"] else [])
               ++ (if author ≠ "" then ["author '" ++ author ++ "'"] else [])))
          else (false, "no rules matched")) := by
        rw [hd, hm0]; simp
      refine ⟨?_, ?_, ?_⟩
      · constructor
        · intro habs
          exfalso
          rw [hd'] at habs
          split at habs <;> simp at habs
        · intro h
          exact absurd (hne_iff.mpr h) (by simp [hnil])
      · intro habs
        exfalso
        rw [hd'] at habs
        split at habs <;> simp at habs
      · intro _
        rw [hd']
        by_cases hb : branch ≠ ""
        · by_cases ha : author ≠ ""
          · rw [if_pos (by simp [hb]), if_pos hb, if_pos ha, if_pos hb, if_pos ha]
            simp only [List.singleton_append]
            rw [hpair]
            simp [String.append_assoc]
          · rw [if_pos (by simp [hb]), if_pos hb, if_pos hb, if_neg ha, if_neg ha]
            simp only [List.append_nil]
            rw [hsingle]
        · by_cases ha : author ≠ ""
          · rw [if_pos (by simp [ha]), if_neg hb, if_neg hb, if_pos ha, if_pos ha]
            simp only [List.nil_append]
            rw [hsingle]
          · rw [if_neg (by simp [hb, ha]), if_neg hb, if_neg ha]
    · -- some rule matched: allow with the joined descriptions
      have hnn : matched ≠ [] := by
        intro h
        exact hm0 (by rw [h]; rfl)
      have hd' : shouldAutoMerge eng pr cfg
          = (true, String.intercalate "; " matched) := by
        rw [hd, if_pos (by simp [List.isEmpty_eq_false.mpr hnn])]
      refine ⟨?_, ?_, ?_⟩
      · rw [hd']
        exact ⟨fun _ => hne_iff.mp hnn, fun _ => rfl⟩
      · intro _
        rw [hd']
        exact ⟨rfl, hmem⟩
      · intro habs
        rw [hd'] at habs
        cases habs

/-- C2 witness: the characterization applied to a Renovate-style PR against a
prefix-only configuration, allowing the merge via the prefix clause. -/
theorem shouldAutoMerge_characterization_witness :
    ("" ∉ cfgRenovate.authorLogins) ∧
    (shouldAutoMerge engNone prRenovate cfgRenovate).1 = true :=
  ⟨by decide, by
    have h := shouldAutoMerge_characterization engNone prRenovate cfgRenovate (by decide)
    exact (h.2.2 rfl (by decide)).1.mpr (Or.inl ⟨"renovate/", by decide, by decide⟩)⟩

/-! ## Decimal representation uniqueness (support for C6) -/

theorem string_eq_of_data {a b : String} (h : a.data = b.data) : a = b := by
  cases a; cases b; exact congrArg String.mk h

theorem toDigitsCore_append (fuel : Nat) : ∀ (n : Nat) (ds : List Char),
    Nat.toDigitsCore 10 fuel n ds = Nat.toDigitsCore 10 fuel n [] ++ ds := by
  induction fuel with
  | zero => intro n ds; simp [Nat.toDigitsCore]
  | succ fuel ih =>
      intro n ds
      simp only [Nat.toDigitsCore]
      by_cases h : n / 10 = 0
      · simp [h]
      · simp only [h, if_false]
        rw [ih (n / 10) (Nat.digitChar (n % 10) :: ds),
          ih (n / 10) [Nat.digitChar (n % 10)], List.append_assoc]
        rfl

theorem toDigitsCore_fuel (n : Nat) : ∀ f₁ f₂ : Nat, n < f₁ → n < f₂ →
    Nat.toDigitsCore 10 f₁ n [] = Nat.toDigitsCore 10 f₂ n [] := by
  induction n using Nat.strong_induction_on with
  | _ n ih =>
      intro f₁ f₂ h₁ h₂
      cases f₁ with
      | zero => omega
      | succ f₁ =>
          cases f₂ with
          | zero => omega
          | succ f₂ =>
              simp only [Nat.toDigitsCore]
              by_cases h : n / 10 = 0
              · simp [h]
              · simp only [h, if_false]
                rw [toDigitsCore_append f₁, toDigitsCore_append f₂]
                have hpos : 0 < n := by
                  rcases Nat.eq_zero_or_pos n with h0 | h0
                  · exact absurd (by simp [h0]) h
                  · exact h0
                have hlt : n / 10 < n := Nat.div_lt_self hpos (by omega)
                rw [ih (n / 10) hlt f₁ f₂ (by omega) (by omega)]

theorem digitChar_sub (m : Nat) (h : m < 10) :
    (Nat.digitChar m).toNat - '0'.toNat = m := by
  interval_cases m <;> decide

theorem decode_toDigits (n : Nat) : decodeDigits (Nat.toDigits 10 n) = n := by
  induction n using Nat.strong_induction_on with
  | _ n ih =>
      simp only [Nat.toDigits, Nat.toDigitsCore]
      have hmod : n % 10 < 10 := Nat.mod_lt _ (by omega)
      have hdm := Nat.div_add_mod n 10
      by_cases h : n / 10 = 0
      · rw [if_pos h]
        have hval : decodeDigits [Nat.digitChar (n % 10)]
            = 0 * 10 + ((Nat.digitChar (n % 10)).toNat - '0'.toNat) := rfl
        rw [hval, digitChar_sub (n % 10) hmod]
        omega
      · rw [if_neg h]
        rw [toDigitsCore_append n (n / 10) [Nat.digitChar (n % 10)]]
        have hpos : 0 < n := by
          rcases Nat.eq_zero_or_pos n with h0 | h0
          · exact absurd (by simp [h0]) h
          · exact h0
        have hlt : n / 10 < n := Nat.div_lt_self hpos (by omega)
        rw [toDigitsCore_fuel (n / 10) n (n / 10 + 1) hlt (Nat.lt_succ_self _)]
        have hrec : Nat.toDigitsCore 10 (n / 10 + 1) (n / 10) [] = Nat.toDigits 10 (n / 10) := by
          simp [Nat.toDigits]
        rw [hrec]
        unfold decodeDigits
        rw [List.foldl_append]
        have hih := ih (n / 10) hlt
        unfold decodeDigits at hih
        rw [hih]
        have hval : List.foldl (fun acc c => acc * 10 + (c.toNat - '0'.toNat))
              (n / 10) [Nat.digitChar (n % 10)]
            = (n / 10) * 10 + ((Nat.digitChar (n % 10)).toNat - '0'.toNat) := rfl
        rw [hval, digitChar_sub (n % 10) hmod]
        omega

theorem natRepr_inj (a b : Nat) (h : Nat.repr a = Nat.repr b) : a = b := by
  have hd : Nat.toDigits 10 a = Nat.toDigits 10 b := by
    have := congrArg String.data h
    simpa [Nat.repr, List.asString] using this
  rw [← decode_toDigits a, ← decode_toDigits b, hd]

theorem natRepr_ne_nil (n : Nat) : (Nat.repr n).data ≠ [] := by
  show (Nat.toDigits 10 n).asString.data ≠ []
  have : (Nat.toDigits 10 n).asString.data = Nat.toDigits 10 n := rfl
  rw [this]
  simp only [Nat.toDigits, Nat.toDigitsCore]
  by_cases h : n / 10 = 0
  · simp [h]
  · simp only [h, if_false]
    rw [toDigitsCore_append]
    simp

theorem natRepr_length_pos (n : Nat) : 0 < (Nat.repr n).length :=
  List.length_pos.mpr (natRepr_ne_nil n)

theorem suffixedAnchor_inj (a : String) : ∀ i j : Nat,
    suffixedAnchor a i = suffixedAnchor a j → i = j := by
  have hlen : ∀ k : Nat, a.length < (a ++ "-" ++ Nat.repr (k + 1)).length := by
    intro k
    rw [String.length_append, String.length_append]
    have := natRepr_length_pos (k + 1)
    have h1 : ("-" : String).length = 1 := rfl
    omega
  intro i j h
  match i, j with
  | 0, 0 => rfl
  | 0, j + 1 =>
      exfalso
      have := congrArg String.length h
      simp only [suffixedAnchor] at this
      have := hlen j
      omega
  | i + 1, 0 =>
      exfalso
      have := congrArg String.length h
      simp only [suffixedAnchor] at this
      have := hlen i
      omega
  | i + 1, j + 1 =>
      simp only [suffixedAnchor] at h
      have hd := congrArg String.data h
      rw [String.data_append, String.data_append, String.data_append,
        String.data_append] at hd
      have hr : (Nat.repr (i + 1)).data = (Nat.repr (j + 1)).data := by
        rw [List.append_assoc, List.append_assoc] at hd
        exact List.append_cancel_left (List.append_cancel_left hd)
      have := natRepr_inj (i + 1) (j + 1) (string_eq_of_data hr)
      omega

/-! ## C6 continued: the shape of repeated `make_anchor` calls -/

theorem makeAnchor_eq (ctr : Counter) (pfx text fallback : String) :
    makeAnchor ctr pfx text fallback =
      (suffixedAnchor (anchorBase pfx text fallback)
         (cGet ctr (anchorBase pfx text fallback)),
       cSet ctr (anchorBase pfx text fallback)
         (cGet ctr (anchorBase pfx text fallback) + 1)) := by
  cases hcg : cGet ctr (anchorBase pfx text fallback) with
  | zero => simp only [makeAnchor]; rw [hcg]; simp [suffixedAnchor]
  | succ m => simp only [makeAnchor]; rw [hcg]; simp [suffixedAnchor]

theorem makeAnchorCalls_shape (pfx text fallback : String) :
    ∀ (n : Nat) (ctr : Counter),
      makeAnchorCalls pfx text fallback ctr n
        = (List.range n).map (fun i =>
            suffixedAnchor (anchorBase pfx text fallback)
              (cGet ctr (anchorBase pfx text fallback) + i)) := by
  intro n
  induction n with
  | zero => intro ctr; simp [makeAnchorCalls]
  | succ n ih =>
      intro ctr
      rw [makeAnchorCalls, makeAnchor_eq]
      rw [List.range_succ_eq_map, List.map_cons, List.map_map]
      refine congrArg₂ List.cons (by simp) ?_
      show makeAnchorCalls pfx text fallback
          (cSet ctr (anchorBase pfx text fallback)
            (cGet ctr (anchorBase pfx text fallback) + 1)) n = _
      rw [ih (cSet ctr (anchorBase pfx text fallback)
        (cGet ctr (anchorBase pfx text fallback) + 1)), cGet_cSet]
      apply List.map_congr_left
      intro i _
      simp only [Function.comp_apply]
      exact congrArg (suffixedAnchor (anchorBase pfx text fallback)) (by omega)

/-- C6, amended: anchors across different titles in one render are not
guaranteed distinct (see the collision counterexample); what `make_anchor`
does guarantee is that N successive calls with identical `(prefix, text)`
against a counter that has not yet seen their base yield exactly the base,
then `base-1`, `base-2`, …: N pairwise-distinct strings, the first without a
numeric suffix. -/
theorem makeAnchor_repeated_distinct (pfx text fallback : String) (ctr : Counter)
    (n : Nat) (h : cGet ctr (anchorBase pfx text fallback) = 0) :
    makeAnchorCalls pfx text fallback ctr n
      = (List.range n).map (suffixedAnchor (anchorBase pfx text fallback)) ∧
    List.Pairwise (· ≠ ·) (makeAnchorCalls pfx text fallback ctr n) ∧
    (0 < n → (makeAnchorCalls pfx text fallback ctr n).head?
      = some (anchorBase pfx text fallback)) := by
  have hshape : makeAnchorCalls pfx text fallback ctr n
      = (List.range n).map (suffixedAnchor (anchorBase pfx text fallback)) := by
    rw [makeAnchorCalls_shape]
    apply List.map_congr_left
    intro i _
    rw [h, Nat.zero_add]
  refine ⟨hshape, ?_, ?_⟩
  · rw [hshape]
    refine List.pairwise_map.mpr (List.Pairwise.imp ?_ (List.pairwise_lt_range n))
    intro i j hij heq
    exact absurd (suffixedAnchor_inj _ i j heq) (Nat.ne_of_lt hij)
  · intro hn
    rw [hshape]
    cases n with
    | zero => omega
    | succ n => rw [List.range_succ_eq_map]; rfl

/-- C6 witness: three identical calls against a fresh counter yield the base
and the `-1`/`-2` suffixed variants. -/
theorem makeAnchor_repeated_distinct_witness :
    cGet [] (anchorBase "finding" "x" "finding") = 0 ∧
    makeAnchorCalls "finding" "x" "finding" [] 3
      = ["finding-x", "finding-x-1", "finding-x-2"] := by
  refine ⟨rfl, ?_⟩
  rw [(makeAnchor_repeated_distinct "finding" "x" "finding" [] 3 rfl).1]
  decide

end Cletus
